import Mathlib

/-!
Shallow embedding of the calculator engine (`calculator-engine.ts`).

The engine is a three-stage pipeline: `tokenize` (lexer), `ExpressionParser`
(recursive-descent parser with three precedence tiers) and `evaluateNode`
(tree-walking evaluator), plus the entry points `evaluate` and
`isValidExpression`.

Modelling choices:
* Numbers are modelled as exact rationals (`ℚ`).  Every numeric fact proved
  below involves only values on which IEEE-754 double arithmetic is exact
  (small integers and terminating binary/decimal fractions are not needed:
  the claims only compare small integers and 1.2), so the rational model
  agrees with the JavaScript semantics on all inputs mentioned in the
  theorems.
* JavaScript exceptions become an explicit `Except CalcError` result; the
  thrown messages are carried by `CalcError.message`.
* The mutually recursive parser methods are driven by a fuel parameter so
  that all definitions are structurally recursive and kernel-computable.
  The top entry point supplies `10 * tokens.length + 10` fuel, which is
  strictly larger than the total number of parser calls any token list can
  cause, so the artificial `outOfFuel` error is unreachable from the entry
  points.
-/

unseal Rat.add Rat.sub Rat.mul Rat.inv

/-- The four binary operator kinds `+ - * /`. -/
inductive Op
  | add
  | sub
  | mul
  | div
deriving DecidableEq

/-- A lexical token: number, operator, or parenthesis (source `Token`,
`type ∈ {number, operator, lparen, rparen}` with its `value` payload). -/
inductive Token
  | num (v : ℚ)
  | op (o : Op)
  | lparen
  | rparen
deriving DecidableEq

/-- The source character of an operator (the `value` field of an operator
token). -/
def Op.char : Op → Char
  | .add => '+'
  | .sub => '-'
  | .mul => '*'
  | .div => '/'

/-- The errors thrown by the engine, one constructor per `throw new Error`
site.  `outOfFuel` is an artifact of the fuel-based termination argument and
is unreachable from the entry points. -/
inductive CalcError
  | invalidChar (c : Char)
  | unexpectedEnd
  | missingClosingParen
  | unexpectedToken (t : Token)
  | divisionByZero
  | outOfFuel
deriving DecidableEq

/-- Rendering of a token value inside the `Unexpected token` message. -/
def Token.valueString : Token → String
  | .num v => toString v
  | .op o => String.singleton o.char
  | .lparen => "("
  | .rparen => ")"

/-- The message string of each `throw new Error(...)` in the source. -/
def CalcError.message : CalcError → String
  | .invalidChar c => "Invalid character in expression: " ++ String.singleton c
  | .unexpectedEnd => "Unexpected end of expression"
  | .missingClosingParen => "Missing closing parenthesis"
  | .unexpectedToken t => "Unexpected token: " ++ t.valueString
  | .divisionByZero => "Division by zero"
  | .outOfFuel => "Fuel exhausted"

/-- Source `/[\d.]/`: a digit or a decimal point (the characters a number
scan consumes greedily). -/
def isNumChar (c : Char) : Bool := c.isDigit || c = '.'

/-- Source `/[+\-*\/]/` classification: which operator a character denotes,
if any. -/
def charOp (c : Char) : Option Op :=
  if c = '+' then some .add
  else if c = '-' then some .sub
  else if c = '*' then some .mul
  else if c = '/' then some .div
  else none

/-- Value of a digit string read in base 10. -/
def digitsVal (ds : List Char) : Nat :=
  ds.foldl (fun a c => 10 * a + (c.toNat - 48)) 0

/-- Value of a fractional digit string (the digits after the decimal
point). -/
def fracVal (ds : List Char) : ℚ :=
  ds.foldr (fun c a => (((c.toNat - 48 : Nat) : ℚ) + a) / 10) 0

/-- Models JavaScript `parseFloat` on the strings the lexer hands it (runs
of digits and decimal points).  `parseFloat` reads the longest valid
decimal-literal front of the string — digits, optionally a point and more
digits — and returns its value, or NaN (`none` here) when no digit is
found in that front part. -/
def jsParseFloat (s : List Char) : Option ℚ :=
  let ds := s.takeWhile Char.isDigit
  match s.dropWhile Char.isDigit with
  | '.' :: r =>
    let fs := r.takeWhile Char.isDigit
    if ds.isEmpty && fs.isEmpty then none
    else some ((digitsVal ds : ℚ) + fracVal fs)
  | _ => if ds.isEmpty then none else some ((digitsVal ds : ℚ))

/-- Source `tokenize` loop, one fuel unit per loop iteration (each
iteration consumes at least one character, so `length + 1` fuel always
suffices).  Mirrors the source order: skip whitespace; greedily scan a
run of digits/points and push its `parseFloat` value when that value is
a number (the `isNaN` guard skips the token otherwise); push operator
and parenthesis tokens; otherwise throw `Invalid character`. -/
def tokenizeChars : Nat → List Char → Except CalcError (List Token)
  | 0, _ => .error .outOfFuel
  | _ + 1, [] => .ok []
  | fuel + 1, c :: cs =>
    if c.isWhitespace then
      tokenizeChars fuel cs
    else if c.isDigit then
      match jsParseFloat ((c :: cs).takeWhile isNumChar) with
      | some v =>
        match tokenizeChars fuel ((c :: cs).dropWhile isNumChar) with
        | .ok ts => .ok (Token.num v :: ts)
        | .error e => .error e
      | none => tokenizeChars fuel ((c :: cs).dropWhile isNumChar)
    else
      match charOp c with
      | some o =>
        match tokenizeChars fuel cs with
        | .ok ts => .ok (Token.op o :: ts)
        | .error e => .error e
      | none =>
        if c = '(' then
          match tokenizeChars fuel cs with
          | .ok ts => .ok (Token.lparen :: ts)
          | .error e => .error e
        else if c = ')' then
          match tokenizeChars fuel cs with
          | .ok ts => .ok (Token.rparen :: ts)
          | .error e => .error e
        else
          .error (.invalidChar c)

/-- Source `tokenize`: scan the whole string. -/
def tokenize (s : String) : Except CalcError (List Token) :=
  tokenizeChars (s.data.length + 1) s.data

/-- The expression tree (source `ExpressionNode`): a number leaf, a unary
negation (the parser builds unary nodes only for `-`; unary `+` is erased),
or a binary operation. -/
inductive ExpressionNode
  | num (v : ℚ)
  | neg (e : ExpressionNode)
  | binop (o : Op) (l r : ExpressionNode)
deriving DecidableEq

/-- Which parser method the fuelled driver `parseGo` is executing:
`parseAddSub` (entry and its while-loop state carrying the tree built so
far) / `parseMulDiv` (likewise) / `parsePrimary`. -/
inductive ParsePhase
  | addSub
  | addSubLoop (left : ExpressionNode)
  | mulDiv
  | mulDivLoop (left : ExpressionNode)
  | primary

/-- The recursive-descent parser of the source class `ExpressionParser`,
with the mutable token cursor replaced by explicit remaining-token lists
and the mutual recursion driven by one structural fuel parameter.  Each
phase mirrors one method:
* `addSub`: parse a multiplicative term, then loop while the next token is
  `+`/`-`, re-rooting the tree on the left (left-associativity);
* `mulDiv`: the same pattern over primaries for `*`/`/`;
* `primary`: parenthesized group (requiring the matching `)`, else
  `Missing closing parenthesis`), unary minus (wraps in a negation node),
  unary plus (returns the next primary unchanged), number leaf; otherwise
  `Unexpected token`, and `Unexpected end of expression` when no token is
  left. -/
def parseGo : Nat → ParsePhase → List Token →
    Except CalcError (ExpressionNode × List Token)
  | 0, _, _ => .error .outOfFuel
  | fuel + 1, phase, ts =>
    match phase with
    | .addSub =>
      match parseGo fuel .mulDiv ts with
      | .ok (left, ts1) => parseGo fuel (.addSubLoop left) ts1
      | .error e => .error e
    | .addSubLoop left =>
      match ts with
      | Token.op Op.add :: ts1 =>
        match parseGo fuel .mulDiv ts1 with
        | .ok (right, ts2) =>
          parseGo fuel (.addSubLoop (.binop Op.add left right)) ts2
        | .error e => .error e
      | Token.op Op.sub :: ts1 =>
        match parseGo fuel .mulDiv ts1 with
        | .ok (right, ts2) =>
          parseGo fuel (.addSubLoop (.binop Op.sub left right)) ts2
        | .error e => .error e
      | _ => .ok (left, ts)
    | .mulDiv =>
      match parseGo fuel .primary ts with
      | .ok (left, ts1) => parseGo fuel (.mulDivLoop left) ts1
      | .error e => .error e
    | .mulDivLoop left =>
      match ts with
      | Token.op Op.mul :: ts1 =>
        match parseGo fuel .primary ts1 with
        | .ok (right, ts2) =>
          parseGo fuel (.mulDivLoop (.binop Op.mul left right)) ts2
        | .error e => .error e
      | Token.op Op.div :: ts1 =>
        match parseGo fuel .primary ts1 with
        | .ok (right, ts2) =>
          parseGo fuel (.mulDivLoop (.binop Op.div left right)) ts2
        | .error e => .error e
      | _ => .ok (left, ts)
    | .primary =>
      match ts with
      | [] => .error .unexpectedEnd
      | Token.lparen :: ts1 =>
        match parseGo fuel .addSub ts1 with
        | .ok (e, ts2) =>
          match ts2 with
          | Token.rparen :: ts3 => .ok (e, ts3)
          | _ => .error .missingClosingParen
        | .error e => .error e
      | Token.op Op.sub :: ts1 =>
        match parseGo fuel .primary ts1 with
        | .ok (e, ts2) => .ok (ExpressionNode.neg e, ts2)
        | .error e => .error e
      | Token.op Op.add :: ts1 => parseGo fuel .primary ts1
      | Token.num v :: ts1 => .ok (ExpressionNode.num v, ts1)
      | t :: _ => .error (.unexpectedToken t)

/-- Source `ExpressionParser.parseAddSub` at a given fuel. -/
def parseAddSub (fuel : Nat) (ts : List Token) :
    Except CalcError (ExpressionNode × List Token) :=
  parseGo fuel .addSub ts

/-- Source `ExpressionParser.parseMulDiv` at a given fuel. -/
def parseMulDiv (fuel : Nat) (ts : List Token) :
    Except CalcError (ExpressionNode × List Token) :=
  parseGo fuel .mulDiv ts

/-- Source `ExpressionParser.parsePrimary` at a given fuel. -/
def parsePrimary (fuel : Nat) (ts : List Token) :
    Except CalcError (ExpressionNode × List Token) :=
  parseGo fuel .primary ts

/-- Source `ExpressionParser.parse` (`new ExpressionParser(tokens).parse()`):
start at the lowest-precedence tier on the whole token list, with fuel
strictly larger than the number of parser calls any list of this length
can cause.  Note the source does not require the remaining token list to
be empty: unconsumed trailing tokens are returned, not rejected. -/
def ExpressionParser.parse (ts : List Token) :
    Except CalcError (ExpressionNode × List Token) :=
  parseAddSub (10 * ts.length + 10) ts

/-- Source `evaluateNode`: post-order reduction of the tree.  A number leaf
returns its value, a unary node negates its operand, a binary node
evaluates left then right and applies the operator, throwing
`Division by zero` when the right operand of `/` is exactly `0`. -/
def evaluateNode : ExpressionNode → Except CalcError ℚ
  | .num v => .ok v
  | .neg e =>
    match evaluateNode e with
    | .ok v => .ok (-v)
    | .error err => .error err
  | .binop o l r =>
    match evaluateNode l with
    | .error err => .error err
    | .ok lv =>
      match evaluateNode r with
      | .error err => .error err
      | .ok rv =>
        match o with
        | .add => .ok (lv + rv)
        | .sub => .ok (lv - rv)
        | .mul => .ok (lv * rv)
        | .div => if rv = 0 then .error .divisionByZero else .ok (lv / rv)

/-- The lex → parse → evaluate pipeline inside the `try` block of the
source `evaluate`, before the uniform re-wrapping. -/
def evaluatePipeline (s : String) : Except CalcError ℚ :=
  match tokenize s with
  | .error e => .error e
  | .ok ts =>
    if ts.isEmpty then .ok 0
    else
      match ExpressionParser.parse ts with
      | .error e => .error e
      | .ok (ast, _) => evaluateNode ast

/-- Source `evaluate`: empty or whitespace-only input returns `0` without
entering the pipeline (`!expression || !expression.trim()`, which holds
exactly when every character is whitespace); otherwise the pipeline runs
and any failure is re-wrapped with the uniform `Calculation error: `
message. -/
def evaluate (s : String) : Except String ℚ :=
  if s.data.all Char.isWhitespace then .ok 0
  else
    match evaluatePipeline s with
    | .ok v => .ok v
    | .error e => .error ("Calculation error: " ++ e.message)

/-- The parenthesis-balance scan of source `isValidExpression`: running
depth counter, `+1` on `(`, `-1` on `)`, early exit (`none`) as soon as
the counter would go negative; otherwise the final counter. -/
def parenScan : List Token → Int → Option Int
  | [], d => some d
  | Token.lparen :: ts, d => parenScan ts (d + 1)
  | Token.rparen :: ts, d =>
    if d - 1 < 0 then none else parenScan ts (d - 1)
  | _ :: ts, d => parenScan ts d

/-- Source `isValidExpression`: empty/whitespace input is valid; otherwise
tokenize (failure → `false`), run the balance scan (early negative →
`false`, nonzero final count → `false`), then attempt a full parse
(`true` on success, `false` on failure).  Total by construction: every
internal failure is downgraded to a boolean. -/
def isValidExpression (s : String) : Bool :=
  if s.data.all Char.isWhitespace then true
  else
    match tokenize s with
    | .error _ => false
    | .ok ts =>
      if ts.isEmpty then true
      else
        match parenScan ts 0 with
        | none => false
        | some d =>
          if d ≠ 0 then false
          else
            match ExpressionParser.parse ts with
            | .ok _ => true
            | .error _ => false

/-- `true` for the additive tier `+ -`, `false` for the multiplicative
tier `* /`. -/
def Op.isAdditive : Op → Bool
  | .add => true
  | .sub => true
  | .mul => false
  | .div => false

/-- Specification-side scan for the amended lexer claim, to be compared
with `tokenize` (which is translated from the source): walk the input the
way the lexer does — skipping whitespace, skipping digit-started runs of
digits and points whole, skipping operators and parentheses — and return
the first character examined outside a digit-started number run that is
none of these, `none` when the walk reaches the end.  It produces no
tokens and parses no literals, so agreement with `tokenize` (proved
below) is exactly the amended claim: the lexer fails on the characters
this scan flags and on nothing else. -/
def scanInvalid : Nat → List Char → Option Char
  | 0, _ => none
  | _ + 1, [] => none
  | fuel + 1, c :: cs =>
    if c.isWhitespace then scanInvalid fuel cs
    else if c.isDigit then scanInvalid fuel ((c :: cs).dropWhile isNumChar)
    else if (charOp c).isSome then scanInvalid fuel cs
    else if c = '(' then scanInvalid fuel cs
    else if c = ')' then scanInvalid fuel cs
    else some c

/-- The first invalid character of an input string under the
specification-side scan `scanInvalid`, with the same one-unit-per-step
fuel bound as `tokenize`. -/
def firstInvalidChar (s : String) : Option Char :=
  scanInvalid (s.data.length + 1) s.data

/-!
Theorems for the claims.
-/

/-- C1. For every valid arithmetic input string, `evaluate` applies
multiplication and division before addition and subtraction, and operators
of the same tier associate left-to-right.  The first conjunct settles the
general shape on every three-operand token sequence `a o1 b o2 c`: the
parser nests to the right exactly when `o1` is additive and `o2`
multiplicative, and to the left otherwise (same tier, or additive after
multiplicative), which is precedence plus left-associativity.  The other
conjuncts are the quoted instances: `evaluate "2 + 3 * 4" = 14`,
`evaluate "10 - 2 * 3" = 4`, `evaluate "24 / 2 / 3" = 4`. -/
theorem c1_precedence_and_left_associativity :
    (∀ (a b c : ℚ) (o1 o2 : Op),
      ExpressionParser.parse
          [Token.num a, Token.op o1, Token.num b, Token.op o2, Token.num c] =
        .ok ((if o1.isAdditive && !o2.isAdditive then
          ExpressionNode.binop o1 (.num a) (.binop o2 (.num b) (.num c))
        else
          ExpressionNode.binop o2 (.binop o1 (.num a) (.num b)) (.num c)), []))
    ∧ evaluate "2 + 3 * 4" = .ok 14
    ∧ evaluate "10 - 2 * 3" = .ok 4
    ∧ evaluate "24 / 2 / 3" = .ok 4 := by
  refine ⟨fun a b c o1 o2 => ?_, rfl, rfl, rfl⟩
  cases o1 <;> cases o2 <;> rfl

/-- C2. A parenthesized group overrides operator precedence and nesting
composes (`evaluate "(2 + 3) * 4" = 20`,
`evaluate "((2 + 3) * 4) / 2" = 10`), and a `(` whose matching `)` is
absent makes the parse fail with the `Missing closing parenthesis` error,
re-wrapped by the top-level `evaluate` — so `evaluate "(2 + 3"` fails with
a message mentioning it.  The last conjunct is the general statement: when
the primary parser enters a `(` group, parses the inner additive
expression, and the remaining input does not start with `)`, the parse
fails with exactly that error. -/
theorem c2_parentheses_override_precedence :
    evaluate "(2 + 3) * 4" = .ok 20
    ∧ evaluate "((2 + 3) * 4) / 2" = .ok 10
    ∧ evaluate "(2 + 3" =
        .error "Calculation error: Missing closing parenthesis"
    ∧ (∀ (fuel : Nat) (ts1 rest : List Token) (n : ExpressionNode),
        parseAddSub fuel ts1 = .ok (n, rest) →
        rest.head? ≠ some Token.rparen →
        parsePrimary (fuel + 1) (Token.lparen :: ts1) =
          .error .missingClosingParen) := by
  refine ⟨rfl, rfl, rfl, fun fuel ts1 rest n h hrest => ?_⟩
  simp only [parsePrimary, parseGo]
  simp only [parseAddSub] at h
  rw [h]
  match rest, hrest with
  | [], _ => rfl
  | Token.num v :: ts3, _ => rfl
  | Token.op o :: ts3, _ => rfl
  | Token.lparen :: ts3, _ => rfl
  | Token.rparen :: ts3, hrest => exact absurd rfl hrest

/-- C2 witness: the general missing-parenthesis conjunct applied to the
token list of `"(2 + 3"`. -/
theorem c2_witness :
    parsePrimary 61
        [Token.lparen, Token.num 2, Token.op Op.add, Token.num 3] =
      .error .missingClosingParen :=
  c2_parentheses_override_precedence.2.2.2 60
    [Token.num 2, Token.op Op.add, Token.num 3] []
    (ExpressionNode.binop Op.add (.num 2) (.num 3)) rfl (by simp)

/-- C3. Tree evaluation fails only on division by zero and on no other
arithmetic operation: every error `evaluateNode` can return is
`Division by zero` (first conjunct), a `/` whose right operand evaluates
to exactly `0` does fail that way (second conjunct), and
`evaluate "5 / 0"` fails with the division-by-zero message re-wrapped by
the top-level `evaluate` with its uniform `Calculation error: ` prefix
(third conjunct). -/
theorem c3_evaluation_fails_only_on_division_by_zero :
    (∀ (e : ExpressionNode) (err : CalcError),
      evaluateNode e = .error err → err = .divisionByZero)
    ∧ (∀ (l r : ExpressionNode) (lv : ℚ),
        evaluateNode l = .ok lv → evaluateNode r = .ok 0 →
        evaluateNode (.binop .div l r) = .error .divisionByZero)
    ∧ evaluate "5 / 0" = .error "Calculation error: Division by zero" := by
  refine ⟨fun e => ?_, fun l r lv hl hr => ?_, rfl⟩
  · induction e with
    | num v => intro err h; exact absurd h (by simp [evaluateNode])
    | neg e ih =>
      intro err h
      simp only [evaluateNode] at h
      split at h
      · exact absurd h (by simp)
      · cases h
        exact ih _ (by assumption)
    | binop o l r ihl ihr =>
      intro err h
      simp only [evaluateNode] at h
      split at h
      · cases h
        exact ihl _ (by assumption)
      · split at h
        · cases h
          exact ihr _ (by assumption)
        · split at h
          · exact absurd h (by simp)
          · exact absurd h (by simp)
          · exact absurd h (by simp)
          · split at h
            · cases h; rfl
            · exact absurd h (by simp)
  · simp only [evaluateNode]
    rw [hl, hr]
    simp

/-- C3 witness: the divide-node conjunct applied to the tree of `5 / 0`. -/
theorem c3_witness :
    evaluateNode (.binop .div (.num 5) (.num 0)) =
      .error CalcError.divisionByZero :=
  c3_evaluation_fails_only_on_division_by_zero.2.1 (.num 5) (.num 0) 5 rfl rfl

/-- C4. `isValidExpression` is a total boolean function (it is a Lean
function into `Bool`, so it can propagate no failure), and on input that
is not empty/whitespace-only it returns `false` when tokenization fails,
`false` when the running parenthesis-depth counter ever goes negative
(the scan exits early), `false` when the counter is nonzero after the
full scan, `false` when the subsequent parse fails, and `true` when the
tokens lex, balance and parse; in particular
`isValidExpression "(2 + 3" = false`, `isValidExpression "()" = false`
and `isValidExpression "2 + # 3" = false`. -/
theorem c4_isValidExpression_characterization :
    (∀ (s : String) (err : CalcError),
      s.data.all Char.isWhitespace = false →
      tokenize s = .error err → isValidExpression s = false)
    ∧ (∀ (s : String) (ts : List Token),
        s.data.all Char.isWhitespace = false →
        tokenize s = .ok ts → parenScan ts 0 = none →
        isValidExpression s = false)
    ∧ (∀ (s : String) (ts : List Token) (d : Int),
        s.data.all Char.isWhitespace = false →
        tokenize s = .ok ts → parenScan ts 0 = some d → d ≠ 0 →
        isValidExpression s = false)
    ∧ (∀ (s : String) (ts : List Token) (err : CalcError),
        s.data.all Char.isWhitespace = false →
        tokenize s = .ok ts → ts ≠ [] → parenScan ts 0 = some 0 →
        ExpressionParser.parse ts = .error err →
        isValidExpression s = false)
    ∧ (∀ (s : String) (ts : List Token) (n : ExpressionNode)
        (rest : List Token),
        s.data.all Char.isWhitespace = false →
        tokenize s = .ok ts → parenScan ts 0 = some 0 →
        ExpressionParser.parse ts = .ok (n, rest) →
        isValidExpression s = true)
    ∧ isValidExpression "(2 + 3" = false
    ∧ isValidExpression "()" = false
    ∧ isValidExpression "2 + # 3" = false := by
  refine ⟨fun s err hws htok => ?_, fun s ts hws htok hscan => ?_,
    fun s ts d hws htok hscan hd => ?_,
    fun s ts err hws htok hne hscan hparse => ?_,
    fun s ts n rest hws htok hscan hparse => ?_, rfl, rfl, rfl⟩
  · simp [isValidExpression, hws, htok]
  · by_cases hemp : ts.isEmpty
    · rw [List.isEmpty_iff] at hemp
      subst hemp
      simp [parenScan] at hscan
    · simp [isValidExpression, hws, htok, hemp, hscan]
  · by_cases hemp : ts.isEmpty
    · rw [List.isEmpty_iff] at hemp
      subst hemp
      simp [parenScan] at hscan
      exact absurd hscan.symm hd
    · simp [isValidExpression, hws, htok, hemp, hscan, hd]
  · have hemp : ts.isEmpty = false := by
      cases ts
      · exact absurd rfl hne
      · rfl
    simp [isValidExpression, hws, htok, hemp, hscan, hparse]
  · by_cases hemp : ts.isEmpty
    · simp [isValidExpression, hws, htok, hemp]
    · simp [isValidExpression, hws, htok, hemp, hscan, hparse]

/-- C4 witness: the all-stages-succeed conjunct applied to `"2 + 3"`. -/
theorem c4_witness : isValidExpression "2 + 3" = true :=
  c4_isValidExpression_characterization.2.2.2.2.1 "2 + 3"
    [Token.num 2, Token.op Op.add, Token.num 3]
    (ExpressionNode.binop Op.add (.num 2) (.num 3)) []
    rfl rfl rfl rfl

/-- Dropping a satisfying run never lengthens a list. -/
theorem length_dropWhile_le (p : Char → Bool) :
    ∀ l : List Char, (l.dropWhile p).length ≤ l.length := by
  intro l
  induction l with
  | nil => simp
  | cons c cs ih =>
    rw [List.dropWhile_cons]
    split
    · exact Nat.le_succ_of_le ih
    · exact Nat.le_refl _

/-- The lexer loop agrees with the specification-side scan `scanInvalid`
(when given enough fuel, one unit per character): when the scan flags a
character the loop fails with exactly the `Invalid character` error
naming it — a character that is not whitespace, not a digit, not an
operator and not a parenthesis — and when the scan flags nothing the
loop succeeds.  In particular the lexer never fails on a malformed
numeric literal. -/
theorem tokenizeChars_agrees_scanInvalid :
    ∀ (fuel : Nat) (cs : List Char), cs.length < fuel →
      (∀ c, scanInvalid fuel cs = some c →
        tokenizeChars fuel cs = .error (.invalidChar c) ∧
        c.isWhitespace = false ∧ c.isDigit = false ∧ charOp c = none ∧
        c ≠ '(' ∧ c ≠ ')')
      ∧ (scanInvalid fuel cs = none →
          ∃ ts, tokenizeChars fuel cs = .ok ts) := by
  intro fuel
  induction fuel with
  | zero =>
    intro cs hlen
    exact absurd hlen (Nat.not_lt_zero _)
  | succ fuel ih =>
    intro cs hlen
    match cs with
    | [] =>
      refine ⟨fun c hc => ?_, fun _ => ⟨[], rfl⟩⟩
      exact absurd hc (by simp [scanInvalid])
    | c :: cs =>
      have hlen2 : cs.length < fuel := by
        simp only [List.length_cons] at hlen
        omega
      by_cases hws : c.isWhitespace = true
      · have hscan : scanInvalid (fuel + 1) (c :: cs) = scanInvalid fuel cs := by
          simp [scanInvalid, hws]
        have htok : tokenizeChars (fuel + 1) (c :: cs) =
            tokenizeChars fuel cs := by
          simp [tokenizeChars, hws]
        rw [hscan, htok]
        exact ih cs hlen2
      · by_cases hdig : c.isDigit = true
        · have hdrop : ((c :: cs).dropWhile isNumChar).length < fuel := by
            have hcn : isNumChar c = true := by simp [isNumChar, hdig]
            rw [List.dropWhile_cons, if_pos hcn]
            exact Nat.lt_of_le_of_lt (length_dropWhile_le _ cs) hlen2
          have hscan : scanInvalid (fuel + 1) (c :: cs) =
              scanInvalid fuel ((c :: cs).dropWhile isNumChar) := by
            simp [scanInvalid, hws, hdig]
          rcases hpf : jsParseFloat ((c :: cs).takeWhile isNumChar)
            with _ | v
          · have htok : tokenizeChars (fuel + 1) (c :: cs) =
                tokenizeChars fuel ((c :: cs).dropWhile isNumChar) := by
              simp [tokenizeChars, hws, hdig, hpf]
            rw [hscan, htok]
            exact ih _ hdrop
          · refine ⟨fun c2 hc2 => ?_, fun hnone => ?_⟩
            · rw [hscan] at hc2
              have h6 := (ih _ hdrop).1 c2 hc2
              exact ⟨by simp [tokenizeChars, hws, hdig, hpf, h6.1], h6.2⟩
            · rw [hscan] at hnone
              obtain ⟨ts, hts⟩ := (ih _ hdrop).2 hnone
              exact ⟨Token.num v :: ts,
                by simp [tokenizeChars, hws, hdig, hpf, hts]⟩
        · rcases hop : charOp c with _ | o
          · by_cases hlp : c = '('
            · have hscan : scanInvalid (fuel + 1) (c :: cs) =
                  scanInvalid fuel cs := by
                simp [scanInvalid, hws, hdig, hop, hlp]
              refine ⟨fun c2 hc2 => ?_, fun hnone => ?_⟩
              · rw [hscan] at hc2
                have h6 := (ih cs hlen2).1 c2 hc2
                exact ⟨by simp [tokenizeChars, charOp, hws, hdig, hlp, h6.1],
                  h6.2⟩
              · rw [hscan] at hnone
                obtain ⟨ts, hts⟩ := (ih cs hlen2).2 hnone
                exact ⟨Token.lparen :: ts,
                  by simp [tokenizeChars, charOp, hws, hdig, hlp, hts]⟩
            · by_cases hrp : c = ')'
              · have hscan : scanInvalid (fuel + 1) (c :: cs) =
                    scanInvalid fuel cs := by
                  simp [scanInvalid, hws, hdig, hop, hlp, hrp]
                refine ⟨fun c2 hc2 => ?_, fun hnone => ?_⟩
                · rw [hscan] at hc2
                  have h6 := (ih cs hlen2).1 c2 hc2
                  exact ⟨by simp [tokenizeChars, charOp, hws, hdig, hlp, hrp,
                    h6.1], h6.2⟩
                · rw [hscan] at hnone
                  obtain ⟨ts, hts⟩ := (ih cs hlen2).2 hnone
                  exact ⟨Token.rparen :: ts,
                    by simp [tokenizeChars, charOp, hws, hdig, hlp, hrp, hts]⟩
              · have hscan : scanInvalid (fuel + 1) (c :: cs) = some c := by
                  simp [scanInvalid, hws, hdig, hop, hlp, hrp]
                refine ⟨fun c2 hc2 => ?_, fun hnone => ?_⟩
                · rw [hscan] at hc2
                  cases hc2
                  exact ⟨by simp [tokenizeChars, hws, hdig, hop, hlp, hrp],
                    by simpa using hws, by simpa using hdig, hop, hlp, hrp⟩
                · rw [hscan] at hnone
                  exact absurd hnone (by simp)
          · have hscan : scanInvalid (fuel + 1) (c :: cs) =
                scanInvalid fuel cs := by
              simp [scanInvalid, hws, hdig, hop]
            refine ⟨fun c2 hc2 => ?_, fun hnone => ?_⟩
            · rw [hscan] at hc2
              have h6 := (ih cs hlen2).1 c2 hc2
              exact ⟨by simp [tokenizeChars, hws, hdig, hop, h6.1], h6.2⟩
            · rw [hscan] at hnone
              obtain ⟨ts, hts⟩ := (ih cs hlen2).2 hnone
              exact ⟨Token.op o :: ts,
                by simp [tokenizeChars, hws, hdig, hop, hts]⟩

/-- C5 counterexample: the claim says a malformed numeric literal such as
`"1.2.3"` makes `tokenize` fail with a `LexError`, but the code's greedy
scan hands the whole run to `parseFloat`, which accepts its longest valid
front `1.2` and never reports failure — `tokenize "1.2.3"` succeeds with
the single number token `1.2`. -/
theorem c5_counterexample_malformed_literal_accepted :
    tokenize "1.2.3" = .ok [Token.num (6/5)] := rfl

/-- C5 amended: `tokenize` fails with a `LexError` exactly when the scan,
outside a digit-started number run, hits a character that is not
whitespace, not a digit, not an operator and not a parenthesis — the
failure is equivalent to the specification-side scan `firstInvalidChar`
flagging such a character, which the error then names, and on every
input the scan traverses without flagging anything `tokenize` succeeds.
A digit-started run always parses to a number (`parseFloat` is never
NaN on it), so a malformed numeric literal such as `"1.2.3"` does not
fail — its longest valid front `1.2` is kept and the rest of the dotted
run is consumed silently — while a `.` outside a number run is an
invalid character. -/
theorem c5_amended_lex_errors_are_invalid_chars :
    (∀ (s : String) (err : CalcError),
      tokenize s = .error err ↔
        ∃ c, firstInvalidChar s = some c ∧ err = .invalidChar c)
    ∧ (∀ (s : String) (c : Char), firstInvalidChar s = some c →
        c.isWhitespace = false ∧ c.isDigit = false ∧ charOp c = none ∧
        c ≠ '(' ∧ c ≠ ')')
    ∧ (∀ s : String, firstInvalidChar s = none →
        ∃ ts, tokenize s = .ok ts)
    ∧ (∀ (c : Char) (l : List Char), c.isDigit = true →
        ∃ q, jsParseFloat (c :: l) = some q)
    ∧ tokenize "1.2.3" = .ok [Token.num (6/5)]
    ∧ tokenize "." = .error (.invalidChar '.') := by
  refine ⟨fun s err => ?_, fun s c h => ?_, fun s h => ?_,
    fun c l hdig => ?_, rfl, rfl⟩
  · have H := tokenizeChars_agrees_scanInvalid (s.data.length + 1) s.data
      (Nat.lt_succ_self _)
    constructor
    · intro herr
      rcases hscan : firstInvalidChar s with _ | c
      · obtain ⟨ts, hts⟩ := H.2 (by simpa [firstInvalidChar] using hscan)
        simp only [tokenize] at herr
        rw [hts] at herr
        exact absurd herr (by simp)
      · obtain ⟨heq, -⟩ := H.1 c (by simpa [firstInvalidChar] using hscan)
        simp only [tokenize] at herr
        rw [heq] at herr
        injection herr with h2
        exact ⟨c, rfl, h2.symm⟩
    · rintro ⟨c, hscan, rfl⟩
      obtain ⟨heq, -⟩ := H.1 c (by simpa [firstInvalidChar] using hscan)
      simpa [tokenize] using heq
  · have H := tokenizeChars_agrees_scanInvalid (s.data.length + 1) s.data
      (Nat.lt_succ_self _)
    exact (H.1 c (by simpa [firstInvalidChar] using h)).2
  · have H := tokenizeChars_agrees_scanInvalid (s.data.length + 1) s.data
      (Nat.lt_succ_self _)
    obtain ⟨ts, hts⟩ := H.2 (by simpa [firstInvalidChar] using h)
    exact ⟨ts, by simpa [tokenize] using hts⟩
  · have hds : ((c :: l).takeWhile Char.isDigit).isEmpty = false := by
      simp [List.takeWhile_cons, hdig]
    simp only [jsParseFloat]
    split
    · exact ⟨_, by rw [if_neg (by simp [hds])]⟩
    · exact ⟨_, by rw [if_neg (by simp [hds])]⟩

/-- C5 witness: the success direction applied to the clean input
`"2 + (3.5)"`, which the scan traverses without flagging a character,
and the failure direction applied to `"2 + # 3"`, whose lexing fails at
the character `#` named by the scan. -/
theorem c5_witness :
    (∃ ts, tokenize "2 + (3.5)" = .ok ts) ∧
      tokenize "2 + # 3" = .error (.invalidChar '#') :=
  ⟨c5_amended_lex_errors_are_invalid_chars.2.2.1 "2 + (3.5)" rfl,
    (c5_amended_lex_errors_are_invalid_chars.1 "2 + # 3"
      (.invalidChar '#')).mpr ⟨'#', rfl, rfl⟩⟩

/-- C6. The claim — matching the repository's own test suite, which
expects `evaluate('2 + 3)')` to throw — says the top-level entry points
reject inputs whose token sequence has unconsumed trailing tokens.  The
code does not: the parse call returns the leftover tokens unchecked and
`evaluate`/`isValidExpression` ignore them, so `evaluate "2 + 3)"` and
`evaluate "2 + 3) 4"` return the value `5` of the parsed front part
instead of failing, `evaluate "2 3"` returns `2`, and
`isValidExpression "2 3"` returns `true`.  (The `)` inputs are caught by
`isValidExpression` only because of its separate balance scan.) -/
theorem c6_trailing_tokens_not_rejected :
    evaluate "2 + 3)" = .ok 5
    ∧ evaluate "2 + 3) 4" = .ok 5
    ∧ evaluate "2 3" = .ok 2
    ∧ isValidExpression "2 3" = true :=
  ⟨rfl, rfl, rfl, rfl⟩

/-- C7. Repeated unary minuses are legal and cancel pairwise
(`evaluate "--5" = 5`, `evaluate "---5" = -5`): the primary parser
consumes a `-` and wraps the recursively parsed primary in a negation
node, consumes a `+` and returns the recursively parsed primary
unchanged (structurally erased), and evaluation of a double negation
returns the operand's value. -/
theorem c7_unary_minus_chains :
    evaluate "--5" = .ok 5
    ∧ evaluate "---5" = .ok (-5)
    ∧ (∀ (fuel : Nat) (ts : List Token),
        parsePrimary (fuel + 1) (Token.op Op.sub :: ts) =
          match parsePrimary fuel ts with
          | .ok (e, rest) => .ok (ExpressionNode.neg e, rest)
          | .error err => .error err)
    ∧ (∀ (fuel : Nat) (ts : List Token),
        parsePrimary (fuel + 1) (Token.op Op.add :: ts) =
          parsePrimary fuel ts)
    ∧ (∀ (e : ExpressionNode) (v : ℚ),
        evaluateNode e = .ok v →
        evaluateNode (.neg (.neg e)) = .ok v) := by
  refine ⟨rfl, rfl, fun fuel ts => rfl, fun fuel ts => rfl,
    fun e v h => ?_⟩
  simp [evaluateNode, h]

/-- C7 witness: pairwise cancellation on the leaf `5`. -/
theorem c7_witness : evaluateNode (.neg (.neg (.num 5))) = .ok 5 :=
  c7_unary_minus_chains.2.2.2.2 (.num 5) 5 rfl

/-- C8. Every empty or whitespace-only input (that is, every input all of
whose characters are whitespace — exactly when the source guard
`!expression || !expression.trim()` holds) makes `evaluate` return `0`
without error and `isValidExpression` return `true`; in particular
`evaluate "" = 0`, `evaluate "   " = 0` and
`isValidExpression "" = true`. -/
theorem c8_empty_and_whitespace_input :
    (∀ s : String, s.data.all Char.isWhitespace = true →
      evaluate s = .ok 0 ∧ isValidExpression s = true)
    ∧ evaluate "" = .ok 0
    ∧ evaluate "   " = .ok 0
    ∧ isValidExpression "" = true := by
  refine ⟨fun s h => ⟨?_, ?_⟩, rfl, rfl, rfl⟩
  · simp [evaluate, h]
  · simp [isValidExpression, h]

/-- C8 witness: the universal conjunct applied to the whitespace-only
input `"   "`. -/
theorem c8_witness :
    evaluate "   " = .ok 0 ∧ isValidExpression "   " = true :=
  c8_empty_and_whitespace_input.1 "   " rfl

/-- C10. `isValidExpression` returning `true` does not guarantee that
`evaluate` succeeds: validation lexes, balance-checks and parses but
never evaluates the tree, so `"5 / 0"` validates as `true` while
`evaluate` fails with the division-by-zero error. -/
theorem c10_valid_does_not_imply_evaluable :
    isValidExpression "5 / 0" = true
    ∧ evaluate "5 / 0" = .error "Calculation error: Division by zero" :=
  ⟨rfl, rfl⟩
